import Mathlib

/-!
Verification of the H&G Abogados legal-portal automation engine
(`src/providers/judicial_connectors.py`, `src/providers/fielweb_connector.py`,
`src/main.py`) against its natural-language specification.

The Python connectors are shallowly embedded: pure helpers become Lean
functions over `List Char` / `List (String × String)`; browser interactions
become an abstract page model whose probe, fill, click and settle behaviours
are explicit data; Python exceptions become `Except` values.
-/

namespace HGA

/-! ## Python string semantics

Helpers mirroring the Python string operations used by the connectors.
They operate on `List Char` so that every definition reduces in the kernel.
-/

namespace PyStr

/-- Characters of `s` before the first newline: `s.split("\n")[0]` on chars. -/
def firstLineChars : List Char → List Char
  | [] => []
  | c :: cs => if c = '\n' then [] else c :: firstLineChars cs

/-- `s.split("\n")[0]` — the (possibly whole-string) first line. -/
def firstLine (s : String) : String := String.mk (firstLineChars s.toList)

/-- Remove leading and trailing whitespace from a char list. -/
def stripChars (l : List Char) : List Char :=
  ((l.dropWhile Char.isWhitespace).reverse.dropWhile Char.isWhitespace).reverse

/-- Python `s.strip()`. -/
def strip (s : String) : String := String.mk (stripChars s.toList)

/-- Python `s.lower()`, modelled with `Char.toLower` (ASCII lowercasing;
all keywords the connectors test are ASCII). -/
def lower (s : String) : String := String.mk (s.toList.map Char.toLower)

/-- Python slice `s[:n]`, counted in characters. -/
def take (s : String) (n : Nat) : String := String.mk (s.toList.take n)

/-- `needle` is a (char-list) substring starting at the front of `hay`. -/
def prefChars : List Char → List Char → Bool
  | [], _ => true
  | _ :: _, [] => false
  | a :: as, b :: bs => a == b && prefChars as bs

/-- `needle` occurs as a contiguous substring of `hay` (char lists). -/
def isInChars (needle : List Char) : List Char → Bool
  | [] => prefChars needle []
  | c :: rest => prefChars needle (c :: rest) || isInChars needle rest

/-- Python `needle in hay` for strings (substring containment). -/
def isIn (needle hay : String) : Bool := isInChars needle.toList hay.toList

/-- Python `a or b` where `a` is `dict.get(...)` (falsy = `None` or `""`). -/
def pyOr (a : Option String) (b : String) : String :=
  match a with
  | some s => if s = "" then b else s
  | none => b

end PyStr

/-! ## Record model

The connectors build and consume plain Python dicts of string values;
we model them as association lists with first-key lookup. -/

/-- A Python dict with string keys and string values. -/
abbrev Rec' := List (String × String)

/-- Python `d.get(k)`: `none` when the key is absent. -/
def dictGet (r : Rec') (k : String) : Option String := List.lookup k r

/-- Python truthiness of a `dict.get` result (`None` and `""` are falsy). -/
def pyTruthy (v : Option String) : Bool :=
  match v with
  | none => false
  | some s => s ≠ ""

/-! ## Link classifier (`fielweb_connector._classify_link`) -/

/-- `DOWNLOAD_FILTERS` from `fielweb_connector.py`. -/
def DOWNLOAD_FILTERS : List String := ["pdf", "word", "docx"]

/-- `LABEL_CONCORDANCIAS` from `fielweb_connector.py`. -/
def LABEL_CONCORDANCIAS : List String := ["Concordancia", "Concordancias"]

/-- `LABEL_JURIS` from `fielweb_connector.py`. -/
def LABEL_JURIS : List String :=
  ["Jurisprudencia", "Sentencia", "Jurisprudencias", "Sentencias"]

/-- Embeds `_classify_link`: lowercase the label, then test the keyword
sets in order (download, concordance, jurisprudence, otherwise "otro"). -/
def classifyLink (texto : String) : String :=
  let t := PyStr.lower texto
  if DOWNLOAD_FILTERS.any (fun k => PyStr.isIn k t) then "descarga"
  else if LABEL_CONCORDANCIAS.any (fun k => PyStr.isIn k t) then "concordancia"
  else if LABEL_JURIS.any (fun k => PyStr.isIn k t) then "jurisprudencia"
  else "otro"

/-! ## Deduplication (`judicial_connectors._dedup`) -/

/-- `MAX_ITEMS` from both connector modules. -/
def MAX_ITEMS : Nat := 10

/-- Loop body of `_dedup`: `seen` is the set of key values already emitted
(modelled as a list), `out` is built in order. -/
def dedupGo (key : String) (seen : List String) : List Rec' → List Rec'
  | [] => []
  | i :: rest =>
    match dictGet i key with
    | none => dedupGo key seen rest
    | some v =>
      if v != "" && !(seen.contains v) then i :: dedupGo key (v :: seen) rest
      else dedupGo key seen rest

/-- Embeds `_dedup(items, key)`. -/
def dedup (items : List Rec') (key : String) : List Rec' := dedupGo key [] items

/-- Specification-side dedup, written from the claim: keep a record iff its
key value is truthy and does not occur in any earlier record of the input. -/
def dedupSpecGo (key : String) (earlier : List Rec') : List Rec' → List Rec'
  | [] => []
  | r :: rest =>
    if pyTruthy (dictGet r key) && earlier.all (fun e => !(dictGet e key == dictGet r key))
    then r :: dedupSpecGo key (earlier ++ [r]) rest
    else dedupSpecGo key (earlier ++ [r]) rest

/-- Specification-side dedup over a whole input list. -/
def dedupSpec (items : List Rec') (key : String) : List Rec' :=
  dedupSpecGo key [] items

/-! ## Page and node model

Browser objects are modelled as data: a node has visible text and anchor
descendants; a page exposes the probe/fill/click/settle behaviours the
connectors exercise. `urljoin` (Python stdlib) is an external collaborator,
modelled as an abstract total function `uj`. -/

/-- An anchor element: `get_attribute("href")` result and `inner_text`. -/
structure Anchor where
  href : Option String
  text : String

/-- A result-container node: `inner_text` and its anchor descendants. -/
structure Node where
  innerText : String
  anchors : List Anchor

/-- Outcome of one `page.query_selector(sel)` probe: a node was found,
no node matched, or the probe raised. -/
inductive ProbeResult where
  | found
  | missing
  | raised
deriving DecidableEq

/-- Python exceptions the connectors distinguish: Playwright's
`TimeoutError`, `RuntimeError`, and everything else. -/
inductive PyExn where
  | pwTimeout (msg : String)
  | runtimeError (msg : String)
  | other (msg : String)
deriving DecidableEq

/-- Python `str(e)` on a modelled exception. -/
def PyExn.message : PyExn → String
  | .pwTimeout m => m
  | .runtimeError m => m
  | .other m => m

/-- Embeds `_first_selector` (identical in both connector modules): probe
candidates in order; a raising probe is skipped like a non-match; `none`
when nothing matches. -/
def firstSelector (probe : String → ProbeResult) : List String → Option String
  | [] => none
  | sel :: rest =>
    match probe sel with
    | .found => some sel
    | _ => firstSelector probe rest

/-- Embeds `_abs_url`: `urljoin(base, href or "")`, with `urljoin` the
abstract collaborator `uj` (total, so the `except` arm is unreachable). -/
def absUrl (uj : String → String → String) (base : String) (href : Option String) :
    String :=
  uj base (href.getD "")

/-- Embeds `_safe_inner_text`: the stripped inner text (default `""`). -/
def safeInnerText (n : Node) : String := PyStr.strip n.innerText

/-! ## SATJE extraction (`judicial_connectors._buscar_satje`, lines 102-114;
the Corte Constitucional and Corte Nacional loops are structurally identical
up to the `fuente`/`descripcion` constants). -/

/-- One record appended by the SATJE anchor loop. -/
def satjeRecord (uj : String → String → String) (pageUrl txt href : String) : Rec' :=
  [("fuente", "SATJE"),
   ("titulo", PyStr.take (PyStr.firstLine txt) 140),
   ("descripcion", "Sentencia registrada en SATJE"),
   ("url", absUrl uj pageUrl (some href))]

/-- The SATJE node/anchor extraction loop over matched containers. -/
def satjeExtract (uj : String → String → String) (pageUrl : String)
    (nodes : List Node) : List Rec' :=
  (nodes.take MAX_ITEMS).flatMap (fun n =>
    n.anchors.filterMap (fun a =>
      if pyTruthy a.href then
        some (satjeRecord uj pageUrl (safeInnerText n) (a.href.getD ""))
      else none))

/-- `_buscar_satje`'s returned list: the extraction, deduplicated by url. -/
def buscarSatje (uj : String → String → String) (pageUrl : String)
    (nodes : List Node) : List Rec' :=
  dedup (satjeExtract uj pageUrl nodes) "url"

/-! ## FielWeb search extraction (`fielweb_connector._buscar`, lines 125-145) -/

/-- `RESULT_ITEM_SELECTORS` from `fielweb_connector.py`. -/
def RESULT_ITEM_SELECTORS : List String :=
  [".resultadoItem", ".card-body", "div.resultado", "div.search-result"]

/-- A classified link as built by the FielWeb anchor loop. -/
structure Enlace where
  tipo : String
  texto : String
  url : String
deriving DecidableEq

/-- A FielWeb result entry: `{"titulo": ..., "enlaces": [...]}`. -/
structure FEntry where
  titulo : String
  enlaces : List Enlace
deriving DecidableEq

/-- The FielWeb anchor loop body: skip empty hrefs, classify the label,
default the label text to "enlace", resolve the url. -/
def fwEnlace (uj : String → String → String) (pageUrl : String) (a : Anchor) :
    Option Enlace :=
  let href := a.href.getD ""
  let tipo := classifyLink a.text
  if href = "" then none
  else some
    ⟨tipo,
     if PyStr.strip a.text = "" then "enlace" else PyStr.strip a.text,
     uj pageUrl href⟩

/-- One FielWeb result entry from one container node. -/
def fwEntry (uj : String → String → String) (pageUrl : String) (n : Node) : FEntry :=
  ⟨PyStr.strip (PyStr.firstLine n.innerText),
   n.anchors.filterMap (fwEnlace uj pageUrl)⟩

/-- The FielWeb container loop: try each container selector in order and
stop at the first one yielding any node (`break` after processing it). -/
def fwExtractLoop (uj : String → String → String) (pageUrl : String)
    (qsa : String → List Node) : List String → List FEntry
  | [] => []
  | sel :: rest =>
    let nodes := qsa sel
    if nodes.isEmpty then fwExtractLoop uj pageUrl qsa rest
    else (nodes.take MAX_ITEMS).map (fwEntry uj pageUrl)

/-! ## Login and search flows (`fielweb_connector._login` / `_buscar`)

A page's interactive behaviour for one flow: navigation outcome, selector
probes, fill/click outcomes, and the network-idle settle outcome. -/

/-- Abstract page behaviour for one flow run. -/
structure PageModel where
  gotoResult : String → Except PyExn Unit
  probe : String → ProbeResult
  fill : String → String → Except PyExn Unit
  click : String → Except PyExn Unit
  waitNetworkIdle : Except PyExn Unit
  querySelectorAll : String → List Node
  url : String

/-- Replace only the settle behaviour of a page. -/
def withIdle (pg : PageModel) (w : Except PyExn Unit) : PageModel :=
  ⟨pg.gotoResult, pg.probe, pg.fill, pg.click, w, pg.querySelectorAll, pg.url⟩

/-- `LOGIN_SELECTORS["user"]` from `fielweb_connector.py`. -/
def LOGIN_SELECTORS_user : List String :=
  ["#usuario", "input[name=\"usuario\"]", "input[placeholder*=\"Usuario\"]",
   "input[id*=\"txtUsuario\"]"]

/-- `LOGIN_SELECTORS["password"]` from `fielweb_connector.py`. -/
def LOGIN_SELECTORS_password : List String :=
  ["#clave", "input[name=\"clave\"]", "input[placeholder*=\"Clave\"]",
   "input[id*=\"txtClave\"]", "input[type=\"password\"]"]

/-- `LOGIN_SELECTORS["submit"]` from `fielweb_connector.py`. -/
def LOGIN_SELECTORS_submit : List String :=
  ["#btnEntrar", "button:has-text(\"Entrar\")", "input[value=\"Entrar\"]",
   "button[type=\"submit\"]", "#ctl00_ContentPlaceHolder1_btnIngresar"]

/-- `SEARCH_SELECTORS["query"]` from `fielweb_connector.py`. -/
def SEARCH_SELECTORS_query : List String :=
  ["input[id*=\"txtBuscar\"]", "input[placeholder*=\"Buscar\"]",
   "input[name*=\"txtBuscar\"]"]

/-- `SEARCH_SELECTORS["submit"]` from `fielweb_connector.py`. -/
def SEARCH_SELECTORS_submit : List String :=
  ["button:has-text(\"Buscar\")", "#ctl00_ContentPlaceHolder1_btnBuscar",
   "button[type=\"submit\"]"]

/-- The `RuntimeError` message raised when login fields are unresolved. -/
def loginFormErrorMsg : String :=
  "Campos de login no encontrados (posible cambio en FielWeb)."

/-- The `RuntimeError` message raised when search controls are unresolved. -/
def searchFormErrorMsg : String := "No se encontraron los controles de búsqueda."

/-- Embeds `_login`: navigate, resolve the three login selectors, raise on a
structural failure, fill and click, then wait for network idle — where a
Playwright timeout is caught, a fixed grace wait happens, and the flow
proceeds as settled. -/
def login (pg : PageModel) (url user password : String) : Except PyExn Unit :=
  match pg.gotoResult url with
  | .error e => .error e
  | .ok _ =>
    match firstSelector pg.probe LOGIN_SELECTORS_user,
          firstSelector pg.probe LOGIN_SELECTORS_password,
          firstSelector pg.probe LOGIN_SELECTORS_submit with
    | some userSel, some passSel, some submSel =>
      match pg.fill userSel user with
      | .error e => .error e
      | .ok _ =>
        match pg.fill passSel password with
        | .error e => .error e
        | .ok _ =>
          match pg.click submSel with
          | .error e => .error e
          | .ok _ =>
            match pg.waitNetworkIdle with
            | .ok _ => .ok ()
            | .error (.pwTimeout _) => .ok ()   -- wait_for_timeout(2000), proceed
            | .error e => .error e
    | _, _, _ => .error (.runtimeError loginFormErrorMsg)

/-- Embeds `_buscar`: resolve the search controls, raise on structural
failure, fill and submit, tolerate a settle timeout exactly like `_login`,
then run the container-extraction loop. -/
def buscarFW (uj : String → String → String) (pg : PageModel) (texto : String) :
    Except PyExn (List FEntry) :=
  match firstSelector pg.probe SEARCH_SELECTORS_query,
        firstSelector pg.probe SEARCH_SELECTORS_submit with
  | some qSel, some bSel =>
    match pg.fill qSel texto with
    | .error e => .error e
    | .ok _ =>
      match pg.click bSel with
      | .error e => .error e
      | .ok _ =>
        match pg.waitNetworkIdle with
        | .ok _ => .ok (fwExtractLoop uj pg.url pg.querySelectorAll RESULT_ITEM_SELECTORS)
        | .error (.pwTimeout _) =>   -- wait_for_timeout(2000), proceed
          .ok (fwExtractLoop uj pg.url pg.querySelectorAll RESULT_ITEM_SELECTORS)
        | .error e => .error e
  | _, _ => .error (.runtimeError searchFormErrorMsg)

/-! ## FielWeb orchestration (`_buscar_en_fielweb_async`, `consultar_fielweb`) -/

/-- The dict shapes `consultar_fielweb` / `_buscar_en_fielweb_async` return. -/
inductive FwOut where
  | ok (mensaje nivel_consulta : String) (resultado : List FEntry)
  | errNivel (error nivel_consulta : String)
  | err (error : String)
deriving DecidableEq

/-- Embeds `_buscar_en_fielweb_async`: missing credentials raise before the
try-block; inside it, any exception from login or search is converted to an
error dict — an `.ok` value is a returned dict, an `.error` a propagated
exception. -/
def buscarEnFielwebAsync (uj : String → String → String) (pg : PageModel)
    (url user password texto : String) : Except PyExn FwOut :=
  if url = "" || user = "" || password = "" then
    .error (.runtimeError
      "Faltan variables de entorno para FielWeb (URL, usuario o contraseña).")
  else
    match (match login pg url user password with
           | .error e => (.error e : Except PyExn (List FEntry))
           | .ok _ => buscarFW uj pg texto) with
    | .ok data =>
      .ok (.ok ("Resultados para \x27" ++ texto ++ "\x27") "FielWeb" data)
    | .error e =>
      .ok (.errNivel ("Error interno en la búsqueda: " ++ e.message) "FielWeb")

/-- Embeds `consultar_fielweb`. The Bool records whether `asyncio.run` (and
hence any browser interaction) was reached. -/
def consultarFielweb (uj : String → String → String) (pg : PageModel)
    (url user password : String) (payload : Rec') : FwOut × Bool :=
  let texto := PyStr.strip
    (PyStr.pyOr (dictGet payload "texto") (PyStr.pyOr (dictGet payload "consulta") ""))
  if texto = "" then
    (.err "Debe proporcionar un texto de búsqueda en \x27texto\x27 o \x27consulta\x27.",
     false)
  else
    match buscarEnFielwebAsync uj pg url user password texto with
    | .ok out => (out, true)
    | .error (.pwTimeout m) =>
      (.errNivel ("Tiempo de espera agotado: " ++ m) "FielWeb", true)
    | .error e =>
      (.errNivel ("Error general al consultar FielWeb: " ++ e.message) "FielWeb", true)

/-! ## Jurisprudence orchestration
(`judicial_connectors._buscar_juris_async`, `consultar_jurisprudencia`)

Each configured source is a `(display name, outcome)` pair: `.ok` is the
record list its search function returned, `.error` the message of the
exception it raised. -/

/-- The dict shapes `consultar_jurisprudencia` / `_buscar_juris_async`
return. -/
inductive JurisOut where
  | ok (mensaje nivel_consulta : String) (resultado : List Rec')
  | errNivel (error nivel_consulta : String)
  | err (error : String)
deriving DecidableEq

/-- The error record appended when one source's search function raises. -/
def errRecord (fuente e : String) : Rec' :=
  [("fuente", fuente), ("error", "No disponible: " ++ e)]

/-- The orchestration loop of `_buscar_juris_async` (lines 205-217): each
source is tried in declaration order; a raising source contributes one error
record instead of propagating. -/
def runSources (sources : List (String × Except String (List Rec'))) : List Rec' :=
  sources.foldl (fun acc s =>
    match s.2 with
    | .ok res => acc ++ res
    | .error e => acc ++ [errRecord s.1 e]) []

/-- Embeds `_buscar_juris_async`: guard empty text, run the source loop,
deduplicate by url, truncate to `MAX_ITEMS`, and wrap in the result dict. -/
def buscarJurisAsync (texto : String)
    (sources : List (String × Except String (List Rec'))) : JurisOut :=
  if texto = "" then .err "Debe ingresar un texto de búsqueda."
  else
    .ok ("Consulta completada para \x27" ++ texto ++ "\x27.") "Jurisprudencia"
      ((dedup (runSources sources) "url").take MAX_ITEMS)

/-- Embeds `consultar_jurisprudencia`: resolve the query text from the
`texto`/`palabras_clave` keys, reject empty text before any browser work,
otherwise run the async orchestrator (the Bool records whether
`asyncio.run` was reached). -/
def consultarJurisprudencia
    (sources : List (String × Except String (List Rec'))) (payload : Rec') :
    JurisOut × Bool :=
  let texto := PyStr.strip
    (PyStr.pyOr (dictGet payload "texto")
      (PyStr.pyOr (dictGet payload "palabras_clave") ""))
  if texto = "" then (.err "Debe proporcionar un texto válido para búsqueda.", false)
  else (buscarJurisAsync texto sources, true)

/-! ## The hybrid endpoint (`main.consult_hybrid`) -/

/-- `dict.get("resultado")` on a FielWeb connector result. -/
def fwResultado : FwOut → Option (List FEntry)
  | .ok _ _ r => some r
  | _ => none

/-- `dict.get("resultado")` on a jurisprudence connector result. -/
def jurisResultado : JurisOut → Option (List Rec')
  | .ok _ _ r => some r
  | _ => none

/-- The response dict of `consult_hybrid`. `fuentes_FielWeb` and
`fuentes_Jurisprudencia` are the two entries of `fuentes_consultadas`. -/
structure HybridOut where
  status : String
  mensaje : String
  texto_consultado : String
  tipo_usuario : String
  fuentes_FielWeb : Bool
  fuentes_Jurisprudencia : Bool
  normativa_y_concordancias : Option (List FEntry)
  jurisprudencia_y_sentencias : Option (List Rec')

/-- Embeds `consult_hybrid` (`main.py` lines 96-120): `fw`/`juris` are
`None` when the connector failed to import, otherwise the dict the
connector returned (connectors never raise, so `bool(resultado)` is the
dict's non-emptiness, i.e. `isSome`); `resultado.get("resultado")` may be
absent on error dicts, while a missing connector contributes `[]`. -/
def consultHybrid (fw : Option FwOut) (juris : Option JurisOut) (payload : Rec') :
    HybridOut :=
  ⟨"ok",
   "Consulta híbrida completada con éxito",
   (dictGet payload "texto").getD "",
   (dictGet payload "tipo_usuario").getD "",
   fw.isSome,
   juris.isSome,
   (match fw with
    | none => some []
    | some out => fwResultado out),
   (match juris with
    | none => some []
    | some out => jurisResultado out)⟩

/-! ## Concrete fixtures used by witnesses and counterexamples -/

/-- A concrete stand-in for `urljoin` used in witnesses. -/
def ujW (base href : String) : String := base ++ href

/-- A page whose probes all find a node, whose interactions succeed and
whose settle wait times out. -/
def pgW : PageModel :=
  ⟨fun _ => .ok (), fun _ => .found, fun _ _ => .ok (), fun _ => .ok (),
   .error (.pwTimeout "Timeout 35000ms exceeded."), fun _ => [], "https://pg/"⟩

/-- A probe that finds the second and third of three candidates. -/
def probeW : String → ProbeResult :=
  fun s => if s = "b" ∨ s = "c" then .found else .raised

/-- The string of `n` letters `a`. -/
def aas (n : Nat) : String := String.mk (List.replicate n 'a')

/-- A container whose trimmed first line is 150 characters long. -/
def nodeLong : Node := ⟨aas 150 ++ "\nresto", [⟨some "d.pdf", "PDF"⟩]⟩

/-- A small container for title-formula witnesses. -/
def nodeShort : Node := ⟨" Hi\nx", [⟨some "h", "PDF"⟩]⟩

/-! ## String and classifier lemmas -/

theorem PyStr.prefChars_head_mem {c : Char} {cs t : List Char}
    (h : prefChars (c :: cs) t = true) : c ∈ t := by
  cases t with
  | nil => simp [prefChars] at h
  | cons b bs =>
    simp only [prefChars, Bool.and_eq_true, beq_iff_eq] at h
    simp [h.1]

theorem PyStr.isInChars_head_mem {c : Char} {cs : List Char} :
    ∀ {l : List Char}, isInChars (c :: cs) l = true → c ∈ l := by
  intro l
  induction l with
  | nil => intro h; simp [isInChars, prefChars] at h
  | cons b bs ih =>
    intro h
    simp only [isInChars, Bool.or_eq_true] at h
    rcases h with h | h
    · exact prefChars_head_mem h
    · exact List.mem_cons_of_mem _ (ih h)

theorem PyStr.toNat_ofNat_valid {m : Nat} (h : m.isValidChar) :
    (Char.ofNat m).toNat = m := by
  rw [Char.ofNat, dif_pos h]
  rfl

/-- `Char.toLower` never produces an ASCII uppercase letter. -/
theorem PyStr.toLower_toNat_not_upper (d : Char) :
    ¬ (65 ≤ (Char.toLower d).toNat ∧ (Char.toLower d).toNat ≤ 90) := by
  unfold Char.toLower
  by_cases h : d.toNat ≥ 65 ∧ d.toNat ≤ 90
  · rw [if_pos h]
    have hv : (d.toNat + 32).isValidChar := by
      left
      omega
    rw [toNat_ofNat_valid hv]
    omega
  · rw [if_neg h]
    omega

theorem PyStr.toLower_ne_upper {c : Char} (h65 : 65 ≤ c.toNat) (h90 : c.toNat ≤ 90)
    (d : Char) : Char.toLower d ≠ c := by
  intro he
  exact toLower_toNat_not_upper d (by rw [he]; exact ⟨h65, h90⟩)

/-- A keyword starting with an ASCII uppercase letter never occurs in a
lowercased string. -/
theorem PyStr.keyword_dead {k : String} {c : Char} {cs : List Char}
    (hk : k.toList = c :: cs) (h65 : 65 ≤ c.toNat) (h90 : c.toNat ≤ 90)
    (t : String) : isIn k (lower t) = false := by
  by_contra hne
  have htrue : isInChars (c :: cs) ((lower t).toList) = true := by
    have := Bool.eq_false_or_eq_true (isIn k (lower t))
    rcases this with h | h
    · rw [isIn, hk] at h; exact h
    · exact absurd h hne
  have hmem : c ∈ (lower t).toList := isInChars_head_mem htrue
  have : (lower t).toList = t.toList.map Char.toLower := rfl
  rw [this] at hmem
  rcases List.mem_map.mp hmem with ⟨d, _, hd⟩
  exact toLower_ne_upper h65 h90 d hd

theorem concordancias_dead (t : String) :
    LABEL_CONCORDANCIAS.any (fun k => PyStr.isIn k (PyStr.lower t)) = false := by
  simp only [LABEL_CONCORDANCIAS, List.any_cons, List.any_nil, Bool.or_eq_false_iff]
  refine ⟨?_, ?_, trivial⟩
  · exact PyStr.keyword_dead (k := "Concordancia") rfl (by decide) (by decide) t
  · exact PyStr.keyword_dead (k := "Concordancias") rfl (by decide) (by decide) t

theorem juris_dead (t : String) :
    LABEL_JURIS.any (fun k => PyStr.isIn k (PyStr.lower t)) = false := by
  simp only [LABEL_JURIS, List.any_cons, List.any_nil, Bool.or_eq_false_iff]
  refine ⟨?_, ?_, ?_, ?_, trivial⟩
  · exact PyStr.keyword_dead (k := "Jurisprudencia") rfl (by decide) (by decide) t
  · exact PyStr.keyword_dead (k := "Sentencia") rfl (by decide) (by decide) t
  · exact PyStr.keyword_dead (k := "Jurisprudencias") rfl (by decide) (by decide) t
  · exact PyStr.keyword_dead (k := "Sentencias") rfl (by decide) (by decide) t

theorem dedupGo_eq_specGo (key : String) :
    ∀ (items : List Rec') (seen : List String) (earlier : List Rec'),
      (∀ v : String, seen.contains v = true ↔
        (v ≠ "" ∧ ∃ e ∈ earlier, dictGet e key = some v)) →
      dedupGo key seen items = dedupSpecGo key earlier items := by
  intro items
  induction items with
  | nil => intro seen earlier _; rfl
  | cons r rest ih =>
    intro seen earlier hinv
    cases hv : dictGet r key with
    | none =>
      have hinv' : ∀ v' : String, seen.contains v' = true ↔
          (v' ≠ "" ∧ ∃ e ∈ earlier ++ [r], dictGet e key = some v') := by
        intro v'
        rw [hinv v']
        constructor
        · rintro ⟨h1, e, he, h2⟩
          exact ⟨h1, e, List.mem_append_left _ he, h2⟩
        · rintro ⟨h1, e, he, h2⟩
          rcases List.mem_append.mp he with he | he
          · exact ⟨h1, e, he, h2⟩
          · rw [List.mem_singleton.mp he, hv] at h2
            cases h2
      have hl : dedupGo key seen (r :: rest) = dedupGo key seen rest := by
        simp [dedupGo, hv]
      have hr : dedupSpecGo key earlier (r :: rest)
          = dedupSpecGo key (earlier ++ [r]) rest := by
        simp [dedupSpecGo, pyTruthy, hv]
      rw [hl, hr]
      exact ih seen (earlier ++ [r]) hinv'
    | some v =>
      by_cases hv0 : v = ""
      · subst hv0
        have hinv' : ∀ v' : String, seen.contains v' = true ↔
            (v' ≠ "" ∧ ∃ e ∈ earlier ++ [r], dictGet e key = some v') := by
          intro v'
          rw [hinv v']
          constructor
          · rintro ⟨h1, e, he, h2⟩
            exact ⟨h1, e, List.mem_append_left _ he, h2⟩
          · rintro ⟨h1, e, he, h2⟩
            rcases List.mem_append.mp he with he | he
            · exact ⟨h1, e, he, h2⟩
            · rw [List.mem_singleton.mp he, hv] at h2
              exact absurd (Option.some.inj h2).symm h1
        have hl : dedupGo key seen (r :: rest) = dedupGo key seen rest := by
          simp [dedupGo, hv]
        have hr : dedupSpecGo key earlier (r :: rest)
            = dedupSpecGo key (earlier ++ [r]) rest := by
          simp [dedupSpecGo, pyTruthy, hv]
        rw [hl, hr]
        exact ih seen (earlier ++ [r]) hinv'
      · by_cases hseen : seen.contains v = true
        · -- duplicate key: both sides skip `r`
          rcases (hinv v).mp hseen with ⟨_, e, he, hkey⟩
          have hall : earlier.all (fun e => !(dictGet e key == dictGet r key)) = false := by
            rcases Bool.eq_false_or_eq_true
              (earlier.all (fun e => !(dictGet e key == dictGet r key))) with h | h
            · have := List.all_eq_true.mp h e he
              rw [hkey, hv] at this
              simp at this
            · exact h
          have hinv' : ∀ v' : String, seen.contains v' = true ↔
              (v' ≠ "" ∧ ∃ e ∈ earlier ++ [r], dictGet e key = some v') := by
            intro v'
            rw [hinv v']
            constructor
            · rintro ⟨h1, e', he', h2⟩
              exact ⟨h1, e', List.mem_append_left _ he', h2⟩
            · rintro ⟨h1, e', he', h2⟩
              rcases List.mem_append.mp he' with he' | he'
              · exact ⟨h1, e', he', h2⟩
              · rw [List.mem_singleton.mp he', hv] at h2
                refine ⟨h1, e, he, ?_⟩
                rw [hkey, Option.some.inj h2]
          have hguardf : (v != "" && !(seen.contains v)) = false := by
            rw [hseen]
            simp
          have hl : dedupGo key seen (r :: rest) = dedupGo key seen rest := by
            simp only [dedupGo, hv]
            rw [hguardf]
            simp
          have hr : dedupSpecGo key earlier (r :: rest)
              = dedupSpecGo key (earlier ++ [r]) rest := by
            simp only [dedupSpecGo]
            rw [hall]
            simp
          rw [hl, hr]
          exact ih seen (earlier ++ [r]) hinv'
        · -- fresh key: both sides keep `r`
          have hseenf : seen.contains v = false := by
            rcases Bool.eq_false_or_eq_true (seen.contains v) with h | h
            · exact absurd h hseen
            · exact h
          have hall : earlier.all (fun e => !(dictGet e key == dictGet r key)) = true := by
            rw [List.all_eq_true]
            intro e he
            rcases Bool.eq_false_or_eq_true (!(dictGet e key == dictGet r key)) with h | h
            · exact h
            · exfalso
              have hx : (dictGet e key == dictGet r key) = true := by
                rcases Bool.eq_false_or_eq_true (dictGet e key == dictGet r key) with hx | hx
                · exact hx
                · rw [hx] at h
                  exact absurd h (by decide)
              have hkey : dictGet e key = some v := by
                rw [beq_iff_eq.mp hx, hv]
              exact hseen ((hinv v).mpr ⟨hv0, e, he, hkey⟩)
          have htr : pyTruthy (dictGet r key) = true := by
            rw [hv]
            simpa [pyTruthy] using hv0
          have hguard : (v != "" && !(seen.contains v)) = true := by
            rw [hseenf]
            simp [bne_iff_ne, hv0]
          have hinv' : ∀ v' : String, (v :: seen).contains v' = true ↔
              (v' ≠ "" ∧ ∃ e ∈ earlier ++ [r], dictGet e key = some v') := by
            intro v'
            rw [List.contains_cons, Bool.or_eq_true_iff]
            constructor
            · intro h
              rcases h with h | h
              · have : v' = v := beq_iff_eq.mp h
                subst this
                exact ⟨hv0, r, List.mem_append_right _ (List.mem_singleton.mpr rfl), hv⟩
              · rcases (hinv v').mp h with ⟨h1, e, he, h2⟩
                exact ⟨h1, e, List.mem_append_left _ he, h2⟩
            · rintro ⟨h1, e, he, h2⟩
              rcases List.mem_append.mp he with he | he
              · exact Or.inr ((hinv v').mpr ⟨h1, e, he, h2⟩)
              · rw [List.mem_singleton.mp he, hv] at h2
                exact Or.inl (beq_iff_eq.mpr (Option.some.inj h2).symm)
          have hl : dedupGo key seen (r :: rest) = r :: dedupGo key (v :: seen) rest := by
            simp only [dedupGo, hv]
            rw [hguard]
            simp
          have hr : dedupSpecGo key earlier (r :: rest)
              = r :: dedupSpecGo key (earlier ++ [r]) rest := by
            simp only [dedupSpecGo]
            rw [htr, hall]
            simp
          rw [hl, hr]
          exact congrArg (r :: ·) (ih (v :: seen) (earlier ++ [r]) hinv')

theorem dedupGo_sublist (key : String) :
    ∀ (items : List Rec') (seen : List String),
      (dedupGo key seen items).Sublist items := by
  intro items
  induction items with
  | nil => intro seen; simp [dedupGo]
  | cons r rest ih =>
    intro seen
    cases hv : dictGet r key with
    | none =>
      simp only [dedupGo, hv]
      exact (ih seen).cons r
    | some v =>
      simp only [dedupGo, hv]
      by_cases hc : (v != "" && !(seen.contains v)) = true
      · rw [if_pos hc]
        exact (ih (v :: seen)).cons₂ r
      · rw [if_neg hc]
        exact (ih seen).cons r

theorem dedupGo_truthy (key : String) :
    ∀ (items : List Rec') (seen : List String) (r : Rec'),
      r ∈ dedupGo key seen items → pyTruthy (dictGet r key) = true := by
  intro items
  induction items with
  | nil => intro seen r h; simp [dedupGo] at h
  | cons i rest ih =>
    intro seen r h
    cases hv : dictGet i key with
    | none =>
      simp only [dedupGo, hv] at h
      exact ih seen r h
    | some v =>
      simp only [dedupGo, hv] at h
      by_cases hc : (v != "" && !(seen.contains v)) = true
      · rw [if_pos hc] at h
        rcases List.mem_cons.mp h with h | h
        · subst h
          rw [hv]
          have hv0 : v ≠ "" := by
            have := (Bool.and_eq_true _ _).mp hc
            simpa using this.1
          simpa [pyTruthy] using hv0
        · exact ih (v :: seen) r h
      · rw [if_neg hc] at h
        exact ih seen r h

/-- The key values of `dedupGo`'s output are pairwise distinct and disjoint
from `seen`. -/
theorem dedupGo_keys_nodup (key : String) :
    ∀ (items : List Rec') (seen : List String),
      ((dedupGo key seen items).filterMap (fun r => dictGet r key)).Nodup
      ∧ ∀ v ∈ (dedupGo key seen items).filterMap (fun r => dictGet r key),
          seen.contains v = false := by
  intro items
  induction items with
  | nil => intro seen; simp [dedupGo]
  | cons i rest ih =>
    intro seen
    cases hv : dictGet i key with
    | none =>
      simp only [dedupGo, hv]
      exact ih seen
    | some v =>
      simp only [dedupGo, hv]
      by_cases hc : (v != "" && !(seen.contains v)) = true
      · rw [if_pos hc]
        have hrec := ih (v :: seen)
        have hvnotin : v ∉ (dedupGo key (v :: seen) rest).filterMap
            (fun r => dictGet r key) := by
          intro hmem
          have := hrec.2 v hmem
          rw [List.contains_cons] at this
          simp at this
        constructor
        · simp only [List.filterMap_cons, hv]
          exact List.Nodup.cons hvnotin hrec.1
        · intro v' hv'
          simp only [List.filterMap_cons, hv] at hv'
          rcases List.mem_cons.mp hv' with h | h
          · subst h
            have := (Bool.and_eq_true _ _).mp hc
            simpa using this.2
          · have := hrec.2 v' h
            rw [List.contains_cons] at this
            exact Bool.or_eq_false_iff.mp this |>.2
      · rw [if_neg hc]
        exact ih seen

theorem runSources_eq_flatMap (sources : List (String × Except String (List Rec'))) :
    runSources sources = sources.flatMap (fun s =>
      match s.2 with
      | .ok res => res
      | .error e => [errRecord s.1 e]) := by
  have h : ∀ (ss : List (String × Except String (List Rec'))) (acc : List Rec'),
      ss.foldl (fun acc s =>
        match s.2 with
        | .ok res => acc ++ res
        | .error e => acc ++ [errRecord s.1 e]) acc
      = acc ++ ss.flatMap (fun s =>
          match s.2 with
          | .ok res => res
          | .error e => [errRecord s.1 e]) := by
    intro ss
    induction ss with
    | nil => intro acc; simp
    | cons s rest ih =>
      intro acc
      cases hs : s.2 with
      | ok res =>
        simp only [List.foldl_cons, List.flatMap_cons, hs]
        rw [ih]
        simp
      | error e =>
        simp only [List.foldl_cons, List.flatMap_cons, hs]
        rw [ih]
        simp
  simpa [runSources] using h sources []

/-! ## Selector resolution lemmas -/

theorem firstSelector_eq_find (probe : String → ProbeResult) :
    ∀ sels : List String,
      firstSelector probe sels = sels.find? (fun s => probe s == ProbeResult.found) := by
  intro sels
  induction sels with
  | nil => rfl
  | cons s rest ih =>
    cases hp : probe s with
    | found =>
      rw [List.find?_cons_of_pos _ (by rw [hp]; rfl)]
      simp [firstSelector, hp]
    | missing =>
      rw [List.find?_cons_of_neg _ (by rw [hp]; decide)]
      rw [← ih]
      simp [firstSelector, hp]
    | raised =>
      rw [List.find?_cons_of_neg _ (by rw [hp]; decide)]
      rw [← ih]
      simp [firstSelector, hp]

theorem firstSelector_first_index (probe : String → ProbeResult) :
    ∀ (sels : List String) (i : Nat) (hi : i < sels.length),
      probe (sels.get ⟨i, hi⟩) = ProbeResult.found →
      (∀ s ∈ sels.take i, probe s ≠ ProbeResult.found) →
      firstSelector probe sels = some (sels.get ⟨i, hi⟩) := by
  intro sels
  induction sels with
  | nil => intro i hi; simp at hi
  | cons s rest ih =>
    intro i hi hfound hbefore
    cases i with
    | zero =>
      simp only [List.get] at hfound
      simp [firstSelector, hfound, List.get]
    | succ j =>
      have hs : probe s ≠ ProbeResult.found := by
        apply hbefore
        rw [List.take_succ_cons]
        exact List.mem_cons_self s _
      cases hp : probe s with
      | found => exact absurd hp hs
      | missing =>
        have hrec := ih j (by simpa using hi) (by simpa using hfound)
          (fun x hx => hbefore x (by rw [List.take_succ_cons]; exact List.mem_cons_of_mem _ hx))
        simp only [firstSelector, hp]
        simpa using hrec
      | raised =>
        have hrec := ih j (by simpa using hi) (by simpa using hfound)
          (fun x hx => hbefore x (by rw [List.take_succ_cons]; exact List.mem_cons_of_mem _ hx))
        simp only [firstSelector, hp]
        simpa using hrec

/-- C2: the selector resolver probes candidates strictly in list order and
returns the first candidate whose probe finds a node — never a later one —
with raising probes treated as non-matching and skipped, and the no-match
sentinel `none` returned (not an exception) when no candidate matches. -/
theorem firstSelector_resolution (probe : String → ProbeResult) (sels : List String) :
    firstSelector probe sels = sels.find? (fun s => probe s == ProbeResult.found)
    ∧ ((∀ s ∈ sels, probe s ≠ ProbeResult.found) → firstSelector probe sels = none)
    ∧ (∀ (i : Nat) (hi : i < sels.length),
        probe (sels.get ⟨i, hi⟩) = ProbeResult.found →
        (∀ s ∈ sels.take i, probe s ≠ ProbeResult.found) →
        firstSelector probe sels = some (sels.get ⟨i, hi⟩)) := by
  refine ⟨firstSelector_eq_find probe sels, ?_, firstSelector_first_index probe sels⟩
  intro hnone
  rw [firstSelector_eq_find probe sels]
  rw [List.find?_eq_none]
  intro s hs
  have := hnone s hs
  simpa using this

/-- Witness for C2: with candidates `["a", "b", "c"]` where the probe of
`"a"` raises and both `"b"` and `"c"` match, the resolver returns `"b"`,
the first matching candidate, not the later `"c"`. -/
theorem firstSelector_resolution_witness :
    firstSelector probeW ["a", "b", "c"] = some "b" := by
  have h := (firstSelector_resolution probeW ["a", "b", "c"]).2.2 1 (by decide)
    (by decide) (by decide)
  simpa using h

/-! ## Deduplicator claims -/

/-- C4: `_dedup` returns exactly the subsequence of records whose key value
has not occurred in an earlier record (stable, order-preserving — a sublist
of the input, not a re-sort), and records with an empty or absent key are
dropped, never treated as duplicates of each other. -/
theorem dedup_spec_correct (items : List Rec') (key : String) :
    dedup items key = dedupSpec items key
    ∧ (dedup items key).Sublist items
    ∧ (∀ r ∈ dedup items key, pyTruthy (dictGet r key) = true) := by
  refine ⟨?_, dedupGo_sublist key items [], fun r hr => dedupGo_truthy key items [] r hr⟩
  apply dedupGo_eq_specGo
  intro v
  constructor
  · intro h
    simp [List.contains] at h
  · rintro ⟨_, e, he, _⟩
    simp at he

/-- Witness for C4 on a list with a duplicate key, an empty key and an
absent key. -/
theorem dedup_spec_correct_witness :
    dedup [[("url", "u1")], [("url", "")], [("x", "y")], [("url", "u1")],
        [("url", "u2")]] "url"
      = dedupSpec [[("url", "u1")], [("url", "")], [("x", "y")], [("url", "u1")],
        [("url", "u2")]] "url" :=
  (dedup_spec_correct
    [[("url", "u1")], [("url", "")], [("x", "y")], [("url", "u1")], [("url", "u2")]]
    "url").1

/-! ## Orchestration claims -/

/-- C1: in the orchestration loop, a source whose search function raises is
converted in place into an error record for that source, the remaining
sources in declaration order still contribute, and the caller always
receives a well-formed result dict; likewise the FielWeb adapter converts
any exception of its login/search steps into an error dict rather than
propagating it (given credentials are configured, whose absence is checked
before the try-block). -/
theorem source_failure_isolation (texto : String)
    (sources : List (String × Except String (List Rec'))) (h : texto ≠ "") :
    runSources sources = sources.flatMap (fun s =>
      match s.2 with
      | .ok res => res
      | .error e => [errRecord s.1 e])
    ∧ (∃ res, buscarJurisAsync texto sources
        = .ok ("Consulta completada para \x27" ++ texto ++ "\x27.") "Jurisprudencia" res)
    ∧ (∀ (uj : String → String → String) (pg : PageModel) (url user password : String),
        url ≠ "" → user ≠ "" → password ≠ "" →
        ∃ out, buscarEnFielwebAsync uj pg url user password texto = .ok out) := by
  refine ⟨runSources_eq_flatMap sources,
    ⟨(dedup (runSources sources) "url").take MAX_ITEMS, by simp [buscarJurisAsync, h]⟩, ?_⟩
  intro uj pg url user password hu hus hp
  simp only [buscarEnFielwebAsync]
  rw [if_neg (by simp [hu, hus, hp])]
  cases hl : login pg url user password with
  | error e =>
    exact ⟨.errNivel ("Error interno en la búsqueda: " ++ e.message) "FielWeb",
      by simp⟩
  | ok _ =>
    cases hb : buscarFW uj pg texto with
    | ok data =>
      exact ⟨.ok ("Resultados para \x27" ++ texto ++ "\x27") "FielWeb" data,
        by simp [hb]⟩
    | error e =>
      exact ⟨.errNivel ("Error interno en la búsqueda: " ++ e.message) "FielWeb",
        by simp [hb]⟩

/-- Witness for C1: one raising source still yields a well-formed result. -/
theorem source_failure_isolation_witness :
    ∃ res, buscarJurisAsync "q"
        [("SATJE", Except.error "boom"), ("Corte Nacional de Justicia",
          Except.ok [[("url", "u")]])]
      = .ok ("Consulta completada para \x27q\x27.") "Jurisprudencia" res :=
  (source_failure_isolation "q"
    [("SATJE", Except.error "boom"), ("Corte Nacional de Justicia",
      Except.ok [[("url", "u")]])] (by decide)).2.1

theorem fwExtractLoop_length_le (uj : String → String → String) (pageUrl : String)
    (qsa : String → List Node) :
    ∀ sels : List String,
      (fwExtractLoop uj pageUrl qsa sels).length ≤ MAX_ITEMS := by
  intro sels
  induction sels with
  | nil => simp [fwExtractLoop, MAX_ITEMS]
  | cons sel rest ih =>
    by_cases hne : (qsa sel).isEmpty = true
    · simpa [fwExtractLoop, hne] using ih
    · simp only [fwExtractLoop, hne]
      rw [if_neg (by simp [hne])]
      rw [List.length_map, List.length_take]
      exact inf_le_left

/-- C5: the final result list holds at most `MAX_ITEMS` (10) entries, the
truncation is applied after deduplication — so with at least 10 unique
entries pre-truncation exactly 10 unique entries are returned and
duplicates never consume slots — and the FielWeb extraction likewise caps
its entries at 10. -/
theorem result_budget (texto : String)
    (sources : List (String × Except String (List Rec'))) (h : texto ≠ "") :
    (∃ res, buscarJurisAsync texto sources
        = .ok ("Consulta completada para \x27" ++ texto ++ "\x27.") "Jurisprudencia" res
      ∧ res = (dedup (runSources sources) "url").take MAX_ITEMS
      ∧ res.length ≤ MAX_ITEMS
      ∧ (MAX_ITEMS ≤ (dedup (runSources sources) "url").length →
          res.length = MAX_ITEMS)
      ∧ (res.filterMap (fun r => dictGet r "url")).Nodup)
    ∧ (∀ (uj : String → String → String) (pageUrl : String) (qsa : String → List Node),
        (fwExtractLoop uj pageUrl qsa RESULT_ITEM_SELECTORS).length ≤ MAX_ITEMS) := by
  constructor
  · refine ⟨(dedup (runSources sources) "url").take MAX_ITEMS,
      by simp [buscarJurisAsync, h], rfl, ?_, ?_, ?_⟩
    · rw [List.length_take]
      exact inf_le_left
    · intro hge
      rw [List.length_take]
      exact inf_eq_left.mpr hge
    · have hsub := (List.take_sublist MAX_ITEMS
        (dedup (runSources sources) "url")).filterMap (fun r => dictGet r "url")
      exact hsub.nodup (dedupGo_keys_nodup "url" (runSources sources) []).1
  · intro uj pageUrl qsa
    exact fwExtractLoop_length_le uj pageUrl qsa RESULT_ITEM_SELECTORS

/-- Witness for C5: twelve unique entries are cut to exactly ten. -/
theorem result_budget_witness :
    (buscarJurisAsync "q"
      [("SATJE", Except.ok
        [[("url", "u01")], [("url", "u02")], [("url", "u03")], [("url", "u04")],
         [("url", "u05")], [("url", "u06")], [("url", "u07")], [("url", "u08")],
         [("url", "u09")], [("url", "u10")], [("url", "u11")], [("url", "u12")]])]
      = .ok ("Consulta completada para \x27q\x27.") "Jurisprudencia"
          [[("url", "u01")], [("url", "u02")], [("url", "u03")], [("url", "u04")],
           [("url", "u05")], [("url", "u06")], [("url", "u07")], [("url", "u08")],
           [("url", "u09")], [("url", "u10")]]) := by
  rcases (result_budget "q"
    [("SATJE", Except.ok
      [[("url", "u01")], [("url", "u02")], [("url", "u03")], [("url", "u04")],
       [("url", "u05")], [("url", "u06")], [("url", "u07")], [("url", "u08")],
       [("url", "u09")], [("url", "u10")], [("url", "u11")], [("url", "u12")]])]
    (by decide)).1 with ⟨res, hres, hr, _, _, _⟩
  rw [hres, hr]
  rfl

/-- C10: every record in a successful jurisprudence result list has a
non-empty url, and the per-source error records (which carry no url key)
are always removed by the url-keyed dedup and never appear in the output. -/
theorem resultado_urls (texto : String)
    (sources : List (String × Except String (List Rec')))
    (mensaje nivel : String) (res : List Rec')
    (hrun : buscarJurisAsync texto sources = .ok mensaje nivel res) :
    (∀ r ∈ res, ∃ v, dictGet r "url" = some v ∧ v ≠ "")
    ∧ (∀ fuente e, errRecord fuente e ∉ res) := by
  by_cases ht : texto = ""
  · rw [buscarJurisAsync, if_pos ht] at hrun
    cases hrun
  · rw [buscarJurisAsync, if_neg ht] at hrun
    have hres : res = (dedup (runSources sources) "url").take MAX_ITEMS :=
      ((JurisOut.ok.injEq _ _ _ _ _ _).mp hrun).2.2.symm
    have hmem : ∀ r ∈ res, pyTruthy (dictGet r "url") = true := by
      intro r hr
      rw [hres] at hr
      exact dedupGo_truthy "url" (runSources sources) [] r
        ((List.take_sublist _ _).subset hr)
    constructor
    · intro r hr
      have := hmem r hr
      cases hv : dictGet r "url" with
      | none =>
        rw [hv] at this
        simp [pyTruthy] at this
      | some v =>
        refine ⟨v, rfl, ?_⟩
        rw [hv] at this
        simpa [pyTruthy] using this
    · intro fuente e hin
      have := hmem _ hin
      have hnone : dictGet (errRecord fuente e) "url" = none := rfl
      rw [hnone] at this
      simp [pyTruthy] at this

/-- Witness for C10: a run where the only source raises yields a result
list free of error records. -/
theorem resultado_urls_witness :
    (∀ r ∈ ([] : List Rec'), ∃ v, dictGet r "url" = some v ∧ v ≠ "")
    ∧ (∀ fuente e, errRecord fuente e ∉ ([] : List Rec')) :=
  resultado_urls "q" [("SATJE", Except.error "falla")]
    ("Consulta completada para \x27q\x27.") "Jurisprudencia" [] (by decide)

/-! ## Settle-timeout and empty-query claims -/

/-- C7: a timeout of the network-idle settle wait during login or search is
absorbed locally — the flow behaves exactly as if the page had settled — it
never surfaces as an error to the caller, and (with interactions
succeeding) only a navigation failure or an unresolved form ends the login
flow. -/
theorem settle_timeout_leniency :
    (∀ (pg : PageModel) (url user password m : String),
        login (withIdle pg (.error (.pwTimeout m))) url user password
          = login (withIdle pg (.ok ())) url user password)
    ∧ (∀ (uj : String → String → String) (pg : PageModel) (texto m : String),
        buscarFW uj (withIdle pg (.error (.pwTimeout m))) texto
          = buscarFW uj (withIdle pg (.ok ())) texto)
    ∧ (∀ (pg : PageModel) (url user password : String),
        (∀ s v, pg.fill s v = .ok ()) →
        (∀ s, pg.click s = .ok ()) →
        (pg.waitNetworkIdle = .ok () ∨ ∃ m, pg.waitNetworkIdle = .error (.pwTimeout m)) →
        login pg url user password = .ok ()
        ∨ (∃ e, pg.gotoResult url = .error e ∧ login pg url user password = .error e)
        ∨ login pg url user password = .error (.runtimeError loginFormErrorMsg)) := by
  refine ⟨?_, ?_, ?_⟩
  · intro pg url user password m
    simp only [login, withIdle]
  · intro uj pg texto m
    simp only [buscarFW, withIdle]
  · intro pg url user password hfill hclick hidle
    cases hg : pg.gotoResult url with
    | error e =>
      exact Or.inr (Or.inl ⟨e, rfl, by simp [login, hg]⟩)
    | ok _ =>
      cases hu : firstSelector pg.probe LOGIN_SELECTORS_user with
      | none => exact Or.inr (Or.inr (by simp [login, hg, hu]))
      | some us =>
        cases hpw : firstSelector pg.probe LOGIN_SELECTORS_password with
        | none => exact Or.inr (Or.inr (by simp [login, hg, hu, hpw]))
        | some ps =>
          cases hsb : firstSelector pg.probe LOGIN_SELECTORS_submit with
          | none => exact Or.inr (Or.inr (by simp [login, hg, hu, hpw, hsb]))
          | some ss =>
            left
            rcases hidle with hw | ⟨m, hw⟩
            · simp [login, hg, hu, hpw, hsb, hfill, hclick, hw]
            · simp [login, hg, hu, hpw, hsb, hfill, hclick, hw]

/-- Witness for C7: on a page whose settle wait times out but whose
interactions succeed, login completes without surfacing the timeout. -/
theorem settle_timeout_leniency_witness :
    login pgW "https://l" "u" "p" = .ok ()
    ∨ (∃ e, pgW.gotoResult "https://l" = .error e
        ∧ login pgW "https://l" "u" "p" = .error e)
    ∨ login pgW "https://l" "u" "p" = .error (.runtimeError loginFormErrorMsg) :=
  settle_timeout_leniency.2.2 pgW "https://l" "u" "p" (fun _ _ => rfl) (fun _ => rfl)
    (Or.inr ⟨"Timeout 35000ms exceeded.", rfl⟩)

/-- C8: a payload whose query text is absent or empty/whitespace-only after
trimming makes both public entry points return a structured error dict
without raising and without reaching any browser interaction. -/
theorem empty_query_guard (uj : String → String → String) (pg : PageModel)
    (url user password : String) (payload : Rec')
    (hfw : PyStr.strip (PyStr.pyOr (dictGet payload "texto")
        (PyStr.pyOr (dictGet payload "consulta") "")) = "")
    (hjr : PyStr.strip (PyStr.pyOr (dictGet payload "texto")
        (PyStr.pyOr (dictGet payload "palabras_clave") "")) = "") :
    consultarFielweb uj pg url user password payload
      = (.err "Debe proporcionar un texto de búsqueda en \x27texto\x27 o \x27consulta\x27.",
         false)
    ∧ (∀ sources, consultarJurisprudencia sources payload
      = (.err "Debe proporcionar un texto válido para búsqueda.", false)) := by
  constructor
  · simp [consultarFielweb, hfw]
  · intro sources
    simp [consultarJurisprudencia, hjr]

/-- Witness for C8: a payload whose `texto` is whitespace-only. -/
theorem empty_query_guard_witness :
    consultarFielweb ujW pgW "https://l" "u" "p" [("texto", "   ")]
      = (.err "Debe proporcionar un texto de búsqueda en \x27texto\x27 o \x27consulta\x27.",
         false)
    ∧ (∀ sources, consultarJurisprudencia sources [("texto", "   ")]
      = (.err "Debe proporcionar un texto válido para búsqueda.", false)) :=
  empty_query_guard ujW pgW "https://l" "u" "p" [("texto", "   ")]
    (by decide) (by decide)

/-! ## Link-classifier claim -/

/-- C3 (code bug): because the label is lowercased but the concordance and
jurisprudence keyword constants are capitalized, those two branches can
never match: the label "Concordancias" — and any concordance or
jurisprudence label without a download word — classifies as "otro", and
every label classifies as either "descarga" or "otro". -/
theorem classify_link_dead_branches :
    classifyLink "Concordancias" = "otro"
    ∧ classifyLink "Jurisprudencia" = "otro"
    ∧ classifyLink "Descargar PDF" = "descarga"
    ∧ (∀ t : String, classifyLink t = "descarga" ∨ classifyLink t = "otro") := by
  refine ⟨by decide, by decide, by decide, ?_⟩
  intro t
  rcases Bool.eq_false_or_eq_true
    (DOWNLOAD_FILTERS.any (fun k => PyStr.isIn k (PyStr.lower t))) with hd | hd
  · left
    simp [classifyLink, hd]
  · right
    simp [classifyLink, hd, concordancias_dead t, juris_dead t]

/-! ## Output-shape claims -/

/-- C6 counterexample: the per-source mapping of the hybrid endpoint does
not distinguish whether a source yielded anything — a FielWeb run that
ended in an error dict (no `resultado` at all) and one that yielded an
entry produce the same `fuentes_consultadas` value; so the output does not
record, per source, whether it yielded anything. -/
theorem per_source_not_distinguishing :
    (consultHybrid (some (FwOut.errNivel "Error interno en la búsqueda: fallo" "FielWeb"))
        (some (JurisOut.err "Debe ingresar un texto de búsqueda.")) []).fuentes_FielWeb
      = (consultHybrid
          (some (FwOut.ok "Resultados para \x27q\x27" "FielWeb" [⟨"t", []⟩]))
          (some (JurisOut.err "Debe ingresar un texto de búsqueda.")) []).fuentes_FielWeb
    ∧ fwResultado (FwOut.errNivel "Error interno en la búsqueda: fallo" "FielWeb") = none
    ∧ fwResultado (FwOut.ok "Resultados para \x27q\x27" "FielWeb" [⟨"t", []⟩])
        = some [⟨"t", []⟩] :=
  ⟨rfl, rfl, rfl⟩

/-- C6 (amended): the hybrid endpoint's output always carries the
per-source mapping `fuentes_consultadas` (both entries defined for every
input, including total failure), but each entry records only whether that
connector was loaded and returned a result dict — it is independent of the
result's content, hence of whether the source yielded entries; the
jurisprudence orchestrator's own dict has no per-source mapping. -/
theorem fuentes_consultadas_shape (fw : Option FwOut) (juris : Option JurisOut)
    (payload : Rec') :
    (consultHybrid fw juris payload).fuentes_FielWeb = fw.isSome
    ∧ (consultHybrid fw juris payload).fuentes_Jurisprudencia = juris.isSome
    ∧ (consultHybrid fw juris payload).status = "ok"
    ∧ (∀ out1 out2 : FwOut,
        (consultHybrid (some out1) juris payload).fuentes_FielWeb
          = (consultHybrid (some out2) juris payload).fuentes_FielWeb)
    ∧ (∀ out1 out2 : JurisOut,
        (consultHybrid fw (some out1) payload).fuentes_Jurisprudencia
          = (consultHybrid fw (some out2) payload).fuentes_Jurisprudencia) :=
  ⟨rfl, rfl, rfl, fun _ _ => rfl, fun _ _ => rfl⟩

/-- Witness for the amended C6: the mapping is populated even when both
sources returned plain error dicts. -/
theorem fuentes_consultadas_shape_witness :
    (consultHybrid (some (FwOut.err "e1")) (some (JurisOut.err "e2")) []).fuentes_FielWeb
      = (some (FwOut.err "e1")).isSome
    ∧ (consultHybrid (some (FwOut.err "e1"))
        (some (JurisOut.err "e2")) []).fuentes_Jurisprudencia
      = (some (JurisOut.err "e2")).isSome :=
  ⟨(fuentes_consultadas_shape (some (FwOut.err "e1")) (some (JurisOut.err "e2")) []).1,
   (fuentes_consultadas_shape (some (FwOut.err "e1")) (some (JurisOut.err "e2")) []).2.1⟩

/-! ## Title-extraction claims -/

theorem satjeExtract_titulo (uj : String → String → String) (pageUrl : String)
    (nodes : List Node) :
    ∀ r ∈ satjeExtract uj pageUrl nodes, ∃ n ∈ nodes,
      dictGet r "titulo"
        = some (PyStr.take (PyStr.firstLine (PyStr.strip n.innerText)) 140) := by
  intro r hr
  simp only [satjeExtract] at hr
  rcases List.mem_flatMap.mp hr with ⟨n, hn, hrn⟩
  refine ⟨n, (List.take_sublist _ _).subset hn, ?_⟩
  rcases List.mem_filterMap.mp hrn with ⟨a, _, ha⟩
  rcases Bool.eq_false_or_eq_true (pyTruthy a.href) with htr | htr
  · rw [if_pos htr] at ha
    rw [← Option.some.inj ha]
    rfl
  · rw [if_neg (by simp [htr])] at ha
    cases ha

theorem fwExtractLoop_mem (uj : String → String → String) (pageUrl : String)
    (qsa : String → List Node) :
    ∀ (sels : List String) (e : FEntry), e ∈ fwExtractLoop uj pageUrl qsa sels →
      ∃ sel ∈ sels, ∃ n ∈ qsa sel, e = fwEntry uj pageUrl n := by
  intro sels
  induction sels with
  | nil =>
    intro e he
    simp [fwExtractLoop] at he
  | cons sel rest ih =>
    intro e he
    by_cases hne : (qsa sel).isEmpty = true
    · rcases ih e (by simpa [fwExtractLoop, hne] using he) with ⟨s, hs, hrest⟩
      exact ⟨s, List.mem_cons_of_mem _ hs, hrest⟩
    · have he' : e ∈ ((qsa sel).take MAX_ITEMS).map (fwEntry uj pageUrl) := by
        simpa [fwExtractLoop, hne] using he
      rcases List.mem_map.mp he' with ⟨n, hn, hne2⟩
      exact ⟨sel, List.mem_cons_self _ _, n, (List.take_sublist _ _).subset hn, hne2.symm⟩

/-- C9 (amended): in the judicial extraction every produced title is the
first line of the container's trimmed text truncated to 140 characters
(hence the whole first line exactly when that line has at most 140
characters), while the FielWeb extraction produces the trimmed first line
of the container's raw text. -/
theorem title_formulas (uj : String → String → String) (pageUrl : String)
    (nodes : List Node) (qsa : String → List Node) :
    (∀ r ∈ buscarSatje uj pageUrl nodes, ∃ n ∈ nodes,
        dictGet r "titulo"
          = some (PyStr.take (PyStr.firstLine (PyStr.strip n.innerText)) 140)
        ∧ ((PyStr.firstLine (PyStr.strip n.innerText)).toList.length ≤ 140 →
            dictGet r "titulo" = some (PyStr.firstLine (PyStr.strip n.innerText))))
    ∧ (∀ e ∈ fwExtractLoop uj pageUrl qsa RESULT_ITEM_SELECTORS,
        ∃ sel ∈ RESULT_ITEM_SELECTORS, ∃ n ∈ qsa sel,
          e.titulo = PyStr.strip (PyStr.firstLine n.innerText)) := by
  constructor
  · intro r hr
    have hr' : r ∈ satjeExtract uj pageUrl nodes :=
      (dedupGo_sublist "url" (satjeExtract uj pageUrl nodes) []).subset hr
    rcases satjeExtract_titulo uj pageUrl nodes r hr' with ⟨n, hn, ht⟩
    refine ⟨n, hn, ht, ?_⟩
    intro hlen
    rw [ht]
    congr 1
    unfold PyStr.take
    rw [List.take_of_length_le hlen]
    rfl
  · intro e he
    rcases fwExtractLoop_mem uj pageUrl qsa RESULT_ITEM_SELECTORS e he with
      ⟨sel, hsel, n, hn, heq⟩
    exact ⟨sel, hsel, n, hn, by rw [heq]; rfl⟩

/-- C9 counterexample: a container whose trimmed text's first line has 150
characters produces a title of only its first 140 characters — the title is
not the whole first line. -/
theorem title_truncated_counterexample :
    (buscarSatje ujW "https://s/" [nodeLong]).map (fun r => dictGet r "titulo")
      = [some (aas 140)]
    ∧ PyStr.firstLine (PyStr.strip nodeLong.innerText) = aas 150
    ∧ aas 140 ≠ aas 150 := by
  refine ⟨by decide, by decide, by decide⟩

/-- Witness for the amended C9 on a concrete small container. -/
theorem title_formulas_witness :
    ∃ n ∈ [nodeShort],
      dictGet [("fuente", "SATJE"), ("titulo", "Hi"),
          ("descripcion", "Sentencia registrada en SATJE"), ("url", "bh")] "titulo"
        = some (PyStr.take (PyStr.firstLine (PyStr.strip n.innerText)) 140)
      ∧ ((PyStr.firstLine (PyStr.strip n.innerText)).toList.length ≤ 140 →
          dictGet [("fuente", "SATJE"), ("titulo", "Hi"),
              ("descripcion", "Sentencia registrada en SATJE"), ("url", "bh")] "titulo"
            = some (PyStr.firstLine (PyStr.strip n.innerText))) :=
  (title_formulas ujW "b" [nodeShort] (fun _ => [])).1
    [("fuente", "SATJE"), ("titulo", "Hi"),
     ("descripcion", "Sentencia registrada en SATJE"), ("url", "bh")]
    (by decide)

end HGA
